import Mathlib

/-!
Verification development for the JSON frame-generation pipeline of
`src/JSON/Generator.cpp` (class `JSON::Generator` and the per-frame worker
object `JSONWorker`).  The definitions below are a shallow embedding of the
source: strings are `List Char`, the Qt/std string routines used by the code
(`std::string::find`/`replace` loop, `QString::split`, `std::to_string`) are
reproduced as executable Lean functions, external collaborators
(`QJsonDocument::fromJson`, `QJSEngine::evaluate`, `IO::Manager`,
`CSV::Player`, `MQTT::Client`) enter as parameters or as environment fields
read at call time, exactly where the source reads them.
-/

namespace SerialStudio

/-- Strings of the embedding: a `QString` / `std::string` as a list of
characters. -/
abbrev Str := List Char

/-- `strL s` is the character list of a Lean string literal (convenience for
concrete inputs). -/
def strL (s : String) : Str := s.data

/-- `begins pat s` holds when `pat` is an initial segment of `s` (the match
test `std::string::find` performs at one position). -/
def begins : Str → Str → Bool
  | [], _ => true
  | _ :: _, [] => false
  | a :: as, b :: bs => (a == b) && begins as bs

/-- Fueled scanner for the replacement loop of `Generator::processFrame`
(Generator.cpp lines 353–357):

    while ((start_pos = json.find(id, start_pos)) != std::string::npos)
    { json.replace(start_pos, id.length(), value); start_pos += value.length(); }

One fuel unit is spent per character position examined; on a match the
inserted `value` is emitted and the scan resumes after it (it is never
rescanned by this pass), which is exactly what `start_pos += value.length()`
does.  With `fuel = s.length` and a nonempty `id` the fuel never runs out. -/
def replaceAllGo (id val : Str) : Nat → Str → Str
  | _, [] => []
  | 0, s => s
  | fuel + 1, c :: rest =>
    if begins id (c :: rest) then
      val ++ replaceAllGo id val fuel ((c :: rest).drop id.length)
    else
      c :: replaceAllGo id val fuel rest

/-- `replaceAll id val s`: the `while (find/replace)` loop of the source run
to completion on `s`. -/
def replaceAll (id val s : Str) : Str := replaceAllGo id val s.length s

/-- Decimal digits of a natural number, as produced by `std::to_string`
(fueled; `fuel = n + 1` always suffices since `n / 10 < n` for `n ≥ 10`). -/
def natDigitsGo : Nat → Nat → Str
  | 0, _ => []
  | fuel + 1, n =>
    if n < 10 then [Nat.digitChar n]
    else natDigitsGo fuel (n / 10) ++ [Nat.digitChar (n % 10)]

/-- `natDigits n` is the decimal text of `n` (`std::to_string(n)`). -/
def natDigits (n : Nat) : Str := natDigitsGo (n + 1) n

/-- The placeholder marker for field `k`:
`std::string id = "%" + std::to_string(i + 1)` with `k = i + 1`. -/
def marker (k : Nat) : Str := '%' :: natDigits k

/-- The field loop of `Generator::processFrame` (lines 347–358): one
`replaceAll` pass per field, fields processed left to right, field at list
position `i` replacing marker `%(i+1)`. -/
def substLoop : Str → List Str → Nat → Str
  | json, [], _ => json
  | json, v :: rest, i => substLoop (replaceAll (marker (i + 1)) v json) rest (i + 1)

/-- Placeholder substitution of the source: every field `i` (0-based) of the
split frame is substituted for the marker `%(i+1)` in the template text, one
full left-to-right pass per field. -/
def substituteFields (template : Str) (fields : List Str) : Str :=
  substLoop template fields 0

/-- Fueled scanner for `QString::split` with a string separator
(`Qt::KeepEmptyParts`, the default used by the source). -/
def splitOnGo (sep : Str) : Nat → Str → List Str
  | _, [] => [[]]
  | 0, s => [s]
  | fuel + 1, c :: rest =>
    if begins sep (c :: rest) && !sep.isEmpty then
      [] :: splitOnGo sep fuel ((c :: rest).drop sep.length)
    else
      match splitOnGo sep fuel rest with
      | [] => [[c]]
      | p :: ps => (c :: p) :: ps

/-- `splitOnStr sep s` is `QString::fromUtf8(s).split(sep)` for a nonempty
separator sequence. -/
def splitOnStr (sep s : Str) : List Str := splitOnGo sep s.length s

/-- JSON values (`QJsonValue`): objects are association lists of key/value
pairs. -/
inductive JVal where
  | null
  | jbool (b : Bool)
  | jnum (n : Int)
  | jstr (s : Str)
  | jarr (xs : List JVal)
  | jobj (fields : List (Str × JVal))

/-- `QJsonValue::toArray()`: the elements for an array value, `[]` (a default
array) otherwise. -/
def JVal.toArr : JVal → List JVal
  | .jarr xs => xs
  | _ => []

/-- `QJsonValue::toObject()` / `QJsonDocument::object()`: the fields for an
object value, an empty object otherwise. -/
def JVal.toObjFields : JVal → List (Str × JVal)
  | .jobj fs => fs
  | _ => []

/-- `QJsonValue::toString()`: the text for a string value, a default (empty)
string otherwise. -/
def JVal.toStr : JVal → Str
  | .jstr s => s
  | _ => []

/-- `QJsonObject::value(k)`: the value stored under `k`, or a
null/undefined value when the key is absent. -/
def objValue (fs : List (Str × JVal)) (k : Str) : JVal :=
  match fs.find? (fun p => p.1 == k) with
  | some p => p.2
  | none => .null

/-- `QJsonObject::remove(k)`. -/
def objErase (fs : List (Str × JVal)) (k : Str) : List (Str × JVal) :=
  fs.filter (fun p => !(p.1 == k))

/-- `remove(k)` followed by `insert(k, v)` — the idiom the source uses to
overwrite a field. -/
def objInsert (fs : List (Str × JVal)) (k : Str) (v : JVal) : List (Str × JVal) :=
  objErase fs k ++ [(k, v)]

/-- Key `"g"` (the groups array of a map document). -/
def gKey : Str := ['g']

/-- Key `"d"` (the datasets array of a group). -/
def dKey : Str := ['d']

/-- Key `"v"` (the value slot of a dataset). -/
def vKey : Str := ['v']

/-- Modelled from the spec: the frame envelope `JFI_Object` of `FrameInfo.h`
(not under `src/`) — "Envelope (frame record): {sequence number: u64, capture
timestamp, structured document}"; an empty envelope carries no document. -/
structure JFI where
  frameNumber : Nat
  time : Nat
  doc : Option JVal

/-- Modelled from the spec: `JFI_CreateNew(frame, time, document)` of
`FrameInfo.h` wraps a built document with its sequence number and capture
timestamp. -/
def JFI_CreateNew (frame : Nat) (time : Nat) (document : JVal) : JFI :=
  ⟨frame, time, some document⟩

/-- Modelled from the spec: `JFI_Empty()` of `FrameInfo.h` — "a distinguished
empty envelope (sequence 0, no document content)". -/
def JFI_Empty : JFI := ⟨0, 0, none⟩

/-- Operation modes of `JSON::Generator` (`kManual` is the templated mode,
`kAutomatic` parses the frame directly). -/
inductive OpMode where
  | kManual
  | kAutomatic
deriving DecidableEq

/-- The mutable state of the `Generator` singleton that the embedded
operations touch, with the inline `QJSEngine` member `m_engine` abstracted to
a state of type `σ`:
`m_frameCount`, `m_opMode`, `m_jsonMapData`, `m_jsonMap` open/closed,
the persisted `json_map_location` setting, and
`m_processInSeparateThread`. -/
structure GenState (σ : Type) where
  frameCount : Nat
  opMode : OpMode
  mapData : Str
  mapOpen : Bool
  settingsPath : Str
  threading : Bool
  engine : σ

/-- Collaborator state read at call time: `CSV::Player::isOpen()`,
`IO::Manager::connected()`, `MQTT::Client::isSubscribed()` and
`IO::Manager::separatorSequence()`. -/
structure Env where
  csvOpen : Bool
  devOpen : Bool
  mqttSub : Bool
  sep : Str
deriving DecidableEq

/-- The private copy a `JSONWorker` receives at construction
(Generator.cpp line 306): frame bytes, the frame number at dispatch and the
dispatch timestamp — nothing else. -/
structure WSnap where
  data : Str
  frame : Nat
  time : Nat
deriving DecidableEq

/-- State-threading map: runs `f` over the list left to right, threading the
`QJSEngine` state through the calls in program order (the shape of the
`for` loops over `groups` / `datasets`). -/
def mapState (f : α → σ → β × σ) : List α → σ → List β × σ
  | [], s => ([], s)
  | a :: as, s =>
    let r := f a s
    let rs := mapState f as r.2
    (r.1 :: rs.1, rs.2)

/-- One dataset of the evaluation loop (Generator.cpp lines 374–390):
`dataset = datasets.at(j).toObject()`, `value = dataset.value("v").toString()`,
`jsValue = engine.evaluate(value)`; when evaluation succeeds the `"v"` field
is overwritten with the textual result and the element replaced, when it
reports an error the original element is kept.  `eval` is the embedding's
parameter for the external `QJSEngine::evaluate`, `σ` the engine's internal
state. -/
def processDataset (eval : Str → σ → Option Str × σ) (e : JVal) (st : σ) : JVal × σ :=
  let ds := e.toObjFields
  let r := eval (objValue ds vKey).toStr st
  match r.1 with
  | some res => (.jobj (objInsert ds vKey (.jstr res)), r.2)
  | none => (e, r.2)

/-- One group of the evaluation loop (lines 367–396): take the group object,
run the dataset loop over its `"d"` array, put the rewritten array back. -/
def processGroup (eval : Str → σ → Option Str × σ) (g : JVal) (st : σ) : JVal × σ :=
  let go := g.toObjFields
  let r := mapState (processDataset eval) (objValue go dKey).toArr st
  (.jobj (objInsert go dKey (.jarr r.1)), r.2)

/-- The whole dynamic-value pass of the templated path (lines 365–403):
`root = document.object()`, rewrite every group of `root.value("g")`, put the
groups array back, rebuild the document. -/
def buildTemplated (eval : Str → σ → Option Str × σ) (doc : JVal) (st : σ) : JVal × σ :=
  let root := doc.toObjFields
  let r := mapState (processGroup eval) (objValue root gKey).toArr st
  (.jobj (objInsert root gKey (.jarr r.1)), r.2)

/-- `Generator::processFrame(data, frame, time)` (lines 325–409), inline
path.  `parse` is the embedding's parameter for the external
`QJsonDocument::fromJson` (`none` = a parse error); the result's second
component is the inline engine `m_engine` after the call.  In automatic mode
the frame bytes are parsed directly; in manual (templated) mode an empty map
is a silent drop, otherwise the frame is split at the separator sequence,
substituted into the map text, the result parsed and its datasets evaluated.
The envelope is emitted only when the recorded parse error is `NoError`. -/
def processFrameCore (parse : Str → Option JVal) (eval : Str → σ → Option Str × σ)
    (g : GenState σ) (env : Env) (data : Str) (frame : Nat) (time : Nat) :
    Option JFI × σ :=
  match g.opMode with
  | .kAutomatic =>
    match parse data with
    | some document => (some (JFI_CreateNew frame time document), g.engine)
    | none => (none, g.engine)
  | .kManual =>
    if g.mapData.isEmpty then (none, g.engine)
    else
      let fields := splitOnStr env.sep data
      let json := substituteFields g.mapData fields
      match parse json with
      | none => (none, g.engine)
      | some doc =>
        let r := buildTemplated eval doc g.engine
        (some (JFI_CreateNew frame time r.1), r.2)

/-- `JSONWorker::process()` (lines 431–524).  The worker owns only its
construction-time snapshot `w`; operation mode and map text are read from the
`Generator` singleton (`gExec`) and the separator from `IO::Manager` (`env`)
when the task executes, and a fresh `QJSEngine` (`freshEngine`) is created
for the task. -/
def workerProcess (parse : Str → Option JVal) (eval : Str → σ → Option Str × σ)
    (freshEngine : σ) (w : WSnap) (gExec : GenState σ) (env : Env) : Option JFI :=
  match gExec.opMode with
  | .kAutomatic =>
    match parse w.data with
    | some document => some (JFI_CreateNew w.frame w.time document)
    | none => none
  | .kManual =>
    if gExec.mapData.isEmpty then none
    else
      let fields := splitOnStr env.sep w.data
      let json := substituteFields gExec.mapData fields
      match parse json with
      | none => none
      | some doc => some (JFI_CreateNew w.frame w.time (buildTemplated eval doc freshEngine).1)

/-- `Generator::loadJFI(info)` (lines 237–248): forward the envelope on the
`jsonChanged` signal when the CSV player is open, the I/O device connected or
the MQTT client subscribed; otherwise call `reset()` (counter to 0, empty
envelope emitted).  Result: new state and the envelopes emitted. -/
def loadJFIfun (g : GenState σ) (env : Env) (info : JFI) : GenState σ × List JFI :=
  if env.csvOpen || env.devOpen || env.mqttSub then (g, [info])
  else ({g with frameCount := 0}, [JFI_Empty])

/-- `Generator::loadJsonMap(path)` (lines 140–192): an empty path is ignored;
an open previous map file is closed first and `m_jsonMapData` cleared; then
the new file is read (`file = none` models an unreadable file).  A JSON parse
error closes the file and clears the persisted path (the already-cleared map
text is not restored); an unreadable file clears map text and persisted path;
on success the new text replaces the old and the path is persisted. -/
def loadJsonMapF (parse : Str → Option JVal) (g : GenState σ) (path : Str)
    (file : Option Str) : GenState σ :=
  if path.isEmpty then g
  else
    let g1 := if g.mapOpen then {g with mapOpen := false, mapData := []} else g
    match file with
    | none => {g1 with mapData := [], settingsPath := [], mapOpen := false}
    | some content =>
      match parse content with
      | none => {g1 with mapOpen := false, settingsPath := []}
      | some _ => {g1 with mapOpen := true, mapData := content, settingsPath := path}

/-- The events delivered to the `Generator` on its event-delivery context:
`readData` (slot for `frameReceived`, carrying the collaborator state read
during the call), `reset` (slot for `openChanged` / `deviceChanged`),
`loadJSON` (public entry incrementing the counter and delivering through
`loadJFI`), `loadJFI` (delivery of an already-numbered envelope, e.g. a
worker's `jsonReady`), the two configuration setters, and `loadMap`
(`loadJsonMap(path)` with the external file-read result). -/
inductive Ev where
  | readData (env : Env) (data : Str) (time : Nat)
  | reset
  | loadJSON (env : Env) (doc : JVal) (time : Nat)
  | loadJFI (env : Env) (info : JFI)
  | setMode (m : OpMode)
  | setThreaded (b : Bool)
  | loadMap (path : Str) (file : Option Str)

/-- One step of the `Generator` state machine.  The result is the new state,
the envelopes emitted on `jsonChanged` during the step, and the snapshots of
worker tasks spawned during the step.  `readData` (lines 290–319) drops the
frame when the CSV player is open or the data empty, otherwise increments
`m_frameCount` and either spawns a `JSONWorker` with a private copy of
(data, count, now) or runs `processFrame` inline; `reset` (lines 271–275)
zeroes the counter and emits the empty envelope; `loadJSON` (lines 261–266)
increments the counter and delivers through `loadJFI`. -/
def step (parse : Str → Option JVal) (eval : Str → σ → Option Str × σ)
    (g : GenState σ) : Ev → GenState σ × List JFI × List WSnap
  | .readData env data time =>
    if env.csvOpen then (g, [], [])
    else if data.isEmpty then (g, [], [])
    else
      let g1 := {g with frameCount := g.frameCount + 1}
      if g1.threading then
        (g1, [], [⟨data, g1.frameCount, time⟩])
      else
        let r := processFrameCore parse eval g1 env data g1.frameCount time
        ({g1 with engine := r.2}, r.1.toList, [])
  | .reset => ({g with frameCount := 0}, [JFI_Empty], [])
  | .loadJSON env doc time =>
    let g1 := {g with frameCount := g.frameCount + 1}
    let r := loadJFIfun g1 env (JFI_CreateNew g1.frameCount time doc)
    (r.1, r.2, [])
  | .loadJFI env info =>
    let r := loadJFIfun g env info
    (r.1, r.2, [])
  | .setMode m => ({g with opMode := m}, [], [])
  | .setThreaded b => ({g with threading := b}, [], [])
  | .loadMap path file => (loadJsonMapF parse g path file, [], [])

/-- `invokesReset e` holds exactly when handling `e` executes
`Generator::reset()`: the reset slot itself, or a delivery through
`loadJFI` while no data source is active. -/
def invokesReset : Ev → Bool
  | .reset => true
  | .loadJFI env _ => !(env.csvOpen || env.devOpen || env.mqttSub)
  | .loadJSON env _ _ => !(env.csvOpen || env.devOpen || env.mqttSub)
  | _ => false

/-- `acceptsFrame e` holds when handling `e` accepts a new frame, i.e.
assigns it the next sequence number: a nonempty `readData` with the CSV
player closed, or a `loadJSON` that is delivered (when no source is active
the incremented counter is immediately reset). -/
def acceptsFrame : Ev → Bool
  | .readData env data _ => !env.csvOpen && !data.isEmpty
  | .loadJSON env _ _ => env.csvOpen || env.devOpen || env.mqttSub
  | _ => false

/-- The state after a list of events. -/
def runState (parse : Str → Option JVal) (eval : Str → σ → Option Str × σ)
    (g : GenState σ) : List Ev → GenState σ
  | [] => g
  | e :: es => runState parse eval (step parse eval g e).1 es

/-- The sequence numbers assigned along a list of events (each accepted
frame receives `frameCount + 1` at the moment it is counted). -/
def runAssigned (parse : Str → Option JVal) (eval : Str → σ → Option Str × σ)
    (g : GenState σ) : List Ev → List Nat
  | [] => []
  | e :: es =>
    (if acceptsFrame e then [g.frameCount + 1] else [])
      ++ runAssigned parse eval (step parse eval g e).1 es

/-- The `"v"` text of the first dataset of the first group of an envelope's
document (projection used to inspect built documents on concrete runs). -/
def jfiDatasetValue (j : JFI) : Str :=
  match j.doc with
  | none => []
  | some d =>
    let gs := (objValue d.toObjFields gKey).toArr
    let g0 := (gs.getD 0 .null).toObjFields
    let ds := (objValue g0 dKey).toArr
    (objValue (ds.getD 0 .null).toObjFields vKey).toStr

end SerialStudio

namespace SerialStudio

theorem begins_self_append (id b : Str) : begins id (id ++ b) = true := by
  induction id with
  | nil => rfl
  | cons a as ih => simp [begins, ih]

theorem replaceAllGo_fuel (id val : Str) (hid : id ≠ []) :
    ∀ (f f' : Nat) (s : Str), s.length ≤ f → s.length ≤ f' →
      replaceAllGo id val f s = replaceAllGo id val f' s := by
  intro f
  induction f with
  | zero =>
    intro f' s hs _
    have : s = [] := List.eq_nil_of_length_eq_zero (Nat.le_zero.mp hs)
    subst this
    cases f' <;> simp [replaceAllGo]
  | succ f ih =>
    intro f' s hs hs'
    match s with
    | [] => cases f' <;> simp [replaceAllGo]
    | c :: rest =>
      have hlen : 1 ≤ id.length := List.length_pos.mpr hid
      cases f' with
      | zero => simp at hs'
      | succ f'' =>
        simp only [replaceAllGo]
        by_cases hb : begins id (c :: rest) = true
        · simp only [hb, if_true]
          have hd : ((c :: rest).drop id.length).length ≤ f := by
            simp only [List.length_drop, List.length_cons]
            simp only [List.length_cons] at hs
            omega
          have hd' : ((c :: rest).drop id.length).length ≤ f'' := by
            simp only [List.length_drop, List.length_cons]
            simp only [List.length_cons] at hs'
            omega
          rw [ih f'' _ hd hd']
        · simp only [Bool.not_eq_true] at hb
          simp only [hb, if_false, Bool.false_eq_true]
          have hr : rest.length ≤ f := by simp only [List.length_cons] at hs; omega
          have hr' : rest.length ≤ f'' := by simp only [List.length_cons] at hs'; omega
          rw [ih f'' _ hr hr']

end SerialStudio

namespace SerialStudio

theorem replaceAll_nil (id val : Str) : replaceAll id val [] = [] := rfl

theorem replaceAll_match (id val s : Str) (hid : id ≠ []) (hb : begins id s = true) :
    replaceAll id val s = val ++ replaceAll id val (s.drop id.length) := by
  match s with
  | [] =>
    cases id with
    | nil => exact absurd rfl hid
    | cons a as => simp [begins] at hb
  | c :: rest =>
    have hlen : 1 ≤ id.length := List.length_pos.mpr hid
    show replaceAllGo id val (rest.length + 1) (c :: rest) = _
    simp only [replaceAllGo, hb, if_true]
    congr 1
    exact replaceAllGo_fuel id val hid rest.length ((c :: rest).drop id.length).length _
      (by simp only [List.length_drop, List.length_cons]; omega) (le_refl _)

theorem replaceAll_nomatch (id val : Str) (c : Char) (rest : Str)
    (hb : begins id (c :: rest) = false) :
    replaceAll id val (c :: rest) = c :: replaceAll id val rest := by
  show replaceAllGo id val (rest.length + 1) (c :: rest) = _
  simp only [replaceAllGo, hb, if_false, Bool.false_eq_true]
  rfl

theorem replaceAll_skip (tl val a b : Str) (ha : '%' ∉ a) :
    replaceAll ('%' :: tl) val (a ++ b) = a ++ replaceAll ('%' :: tl) val b := by
  induction a with
  | nil => rfl
  | cons c a' ih =>
    have hc : c ≠ '%' := fun h => ha (h ▸ List.mem_cons_self c a')
    have hb : begins ('%' :: tl) (c :: (a' ++ b)) = false := by
      simp [begins, Ne.symm hc]
    rw [List.cons_append, replaceAll_nomatch _ _ _ _ hb,
      ih (fun h => ha (List.mem_cons_of_mem c h)), List.cons_append]

theorem replaceAll_of_no_percent (tl val s : Str) (hs : '%' ∉ s) :
    replaceAll ('%' :: tl) val s = s := by
  have h := replaceAll_skip tl val s [] hs
  rw [List.append_nil] at h
  rw [h, replaceAll_nil, List.append_nil]

end SerialStudio

namespace SerialStudio

theorem natDigits_single (k : Nat) (hk : k < 10) : natDigits k = [Nat.digitChar k] := by
  simp [natDigits, natDigitsGo, hk]

theorem digitChar_ne_percent : ∀ k : Nat, k < 10 → Nat.digitChar k ≠ '%' := by decide

theorem digitChar_injOn : ∀ k : Nat, k < 10 → ∀ e : Nat, e < 10 → k ≠ e →
    Nat.digitChar k ≠ Nat.digitChar e := by decide

theorem marker_single (k : Nat) (hk : k < 10) : marker k = ['%', Nat.digitChar k] := by
  simp [marker, natDigits_single k hk]

/-- A template carved into literal runs and placeholder markers:
`piece lit k rest` stands for the text `lit ++ "%k" ++ rest`. -/
inductive Tmpl where
  | last (lit : Str)
  | piece (lit : Str) (k : Nat) (rest : Tmpl)

/-- The template's serialized text. -/
def Tmpl.flatten : Tmpl → Str
  | .last l => l
  | .piece l k r => l ++ marker k ++ r.flatten

/-- The template text after the passes for ids `1..d`: markers with id `≤ d`
already replaced by their field value, the rest still literal marker text. -/
def Tmpl.flattenUpTo (d : Nat) (vals : Nat → Str) : Tmpl → Str
  | .last l => l
  | .piece l k r => l ++ (if k ≤ d then vals k else marker k) ++ r.flattenUpTo d vals

/-- The specified substitution result: every marker `%k` replaced by field
`k`'s value. -/
def Tmpl.substAll (vals : Nat → Str) : Tmpl → Str
  | .last l => l
  | .piece l k r => l ++ vals k ++ r.substAll vals

/-- Well-formedness of a carved template for a frame of `n` fields: literal
runs contain no `%` and every referenced id is in `1..n`. -/
def Tmpl.Wf (n : Nat) : Tmpl → Prop
  | .last l => '%' ∉ l
  | .piece l k r => '%' ∉ l ∧ 1 ≤ k ∧ k ≤ n ∧ r.Wf n

instance Tmpl.decWf (n : Nat) : (t : Tmpl) → Decidable (t.Wf n)
  | .last l => inferInstanceAs (Decidable ('%' ∉ l))
  | .piece l k r =>
    haveI : Decidable (r.Wf n) := Tmpl.decWf n r
    inferInstanceAs (Decidable ('%' ∉ l ∧ 1 ≤ k ∧ k ≤ n ∧ r.Wf n))

theorem flattenUpTo_zero (vals : Nat → Str) (n : Nat) :
    ∀ T : Tmpl, T.Wf n → T.flattenUpTo 0 vals = T.flatten := by
  intro T
  induction T with
  | last l => intro _; rfl
  | piece l k r ih =>
    intro hw
    obtain ⟨-, hk1, -, hwr⟩ := hw
    simp only [Tmpl.flattenUpTo, Tmpl.flatten, ih hwr]
    have : ¬ k ≤ 0 := by omega
    simp [this]

theorem flattenUpTo_substAll (vals : Nat → Str) (n : Nat) :
    ∀ T : Tmpl, T.Wf n → T.flattenUpTo n vals = T.substAll vals := by
  intro T
  induction T with
  | last l => intro _; rfl
  | piece l k r ih =>
    intro hw
    obtain ⟨-, -, hkn, hwr⟩ := hw
    simp [Tmpl.flattenUpTo, Tmpl.substAll, ih hwr, hkn]

end SerialStudio

namespace SerialStudio

theorem replaceAll_skip_marker (e : Nat) (val a b : Str) (ha : '%' ∉ a) :
    replaceAll (marker e) val (a ++ b) = a ++ replaceAll (marker e) val b :=
  replaceAll_skip (natDigits e) val a b ha

theorem replaceAll_marker_no_percent (e : Nat) (val s : Str) (hs : '%' ∉ s) :
    replaceAll (marker e) val s = s :=
  replaceAll_of_no_percent (natDigits e) val s hs

theorem replaceAll_pass (vals : Nat → Str) (n d : Nat) (hd : d + 1 ≤ 9) (hn : n ≤ 9)
    (hvals : ∀ k, '%' ∉ vals k) :
    ∀ T : Tmpl, T.Wf n →
      replaceAll (marker (d + 1)) (vals (d + 1)) (T.flattenUpTo d vals)
        = T.flattenUpTo (d + 1) vals := by
  intro T
  induction T with
  | last l =>
    intro hl
    exact replaceAll_marker_no_percent _ _ l hl
  | piece l k r ih =>
    intro hw
    obtain ⟨hl, hk1, hkn, hwr⟩ := hw
    simp only [Tmpl.flattenUpTo, List.append_assoc]
    rw [replaceAll_skip_marker _ _ l _ hl]
    by_cases hkd : k ≤ d
    · have hk1' : k ≤ d + 1 := by omega
      rw [if_pos hkd, if_pos hk1']
      rw [replaceAll_skip_marker _ _ (vals k) _ (hvals k), ih hwr]
    · rw [if_neg hkd]
      by_cases hke : k = d + 1
      · subst hke
        rw [if_pos (le_refl (d + 1))]
        rw [replaceAll_match _ _ _ (by simp [marker]) (begins_self_append _ _),
          List.drop_left, ih hwr]
      · have hkgt : ¬ k ≤ d + 1 := by omega
        rw [if_neg hkgt]
        have hk10 : k < 10 := by omega
        have hd10 : d + 1 < 10 := by omega
        rw [marker_single k hk10]
        have hne : Nat.digitChar (d + 1) ≠ Nat.digitChar k :=
          digitChar_injOn _ hd10 _ hk10 (by omega)
        have hb1 : begins (marker (d + 1)) ('%' :: Nat.digitChar k :: r.flattenUpTo d vals)
            = false := by
          rw [marker_single _ hd10]
          simp [begins, hne]
        have hb2 : begins (marker (d + 1)) (Nat.digitChar k :: r.flattenUpTo d vals)
            = false := by
          rw [marker_single _ hd10]
          simp [begins, (digitChar_ne_percent k hk10).symm]
        congr 1
        show replaceAll (marker (d + 1)) (vals (d + 1))
            ('%' :: Nat.digitChar k :: r.flattenUpTo d vals) = _
        rw [replaceAll_nomatch _ _ _ _ hb1, replaceAll_nomatch _ _ _ _ hb2, ih hwr]
        rfl

end SerialStudio

namespace SerialStudio

theorem substLoop_passes (vals : Nat → Str) (n : Nat) (hn : n ≤ 9)
    (hvals : ∀ k, '%' ∉ vals k) (T : Tmpl) (hT : T.Wf n) :
    ∀ (fs : List Str) (d : Nat), d + fs.length ≤ 9 →
      (∀ (i : Nat) (h : i < fs.length), fs.get ⟨i, h⟩ = vals (d + i + 1)) →
      substLoop (T.flattenUpTo d vals) fs d = T.flattenUpTo (d + fs.length) vals := by
  intro fs
  induction fs with
  | nil =>
    intro d _ _
    simp [substLoop]
  | cons v vs ih =>
    intro d hbound hget
    have hv : v = vals (d + 1) := by
      have := hget 0 (by simp)
      simpa using this
    have hd9 : d + 1 ≤ 9 := by simp [List.length_cons] at hbound; omega
    show substLoop (replaceAll (marker (d + 1)) v (T.flattenUpTo d vals)) vs (d + 1)
        = T.flattenUpTo (d + (vs.length + 1)) vals
    rw [hv, replaceAll_pass vals n d hd9 hn hvals T hT]
    have harg : d + (vs.length + 1) = (d + 1) + vs.length := by omega
    rw [harg]
    apply ih (d + 1) (by simp [List.length_cons] at hbound; omega)
    intro i h
    have := hget (i + 1) (by simp [List.length_cons]; omega)
    have harg2 : d + (i + 1) + 1 = d + 1 + i + 1 := by omega
    rw [harg2] at this
    simpa using this

theorem getD_vals (fields : List Str) (i : Nat) (h : i < fields.length) :
    fields.getD i [] = fields.get ⟨i, h⟩ := by
  rw [List.getD_eq_getElem?_getD, List.getElem?_eq_getElem h]
  rfl

theorem substituteFields_spec (T : Tmpl) (fields : List Str)
    (hn : fields.length ≤ 9) (hT : T.Wf fields.length)
    (hv : ∀ v ∈ fields, '%' ∉ v) :
    substituteFields T.flatten fields
      = T.substAll (fun k => fields.getD (k - 1) []) := by
  have hvals : ∀ k, '%' ∉ fields.getD (k - 1) [] := by
    intro k
    by_cases h : k - 1 < fields.length
    · rw [getD_vals fields _ h]
      exact hv _ (List.get_mem fields _ h)
    · rw [List.getD_eq_getElem?_getD, List.getElem?_eq_none (by omega)]
      simp
  show substLoop T.flatten fields 0 = _
  rw [← flattenUpTo_zero (fun k => fields.getD (k - 1) []) fields.length T hT]
  rw [substLoop_passes (fun k => fields.getD (k - 1) []) fields.length hn hvals T hT
    fields 0 (by omega) ?hget]
  case hget =>
    intro i h
    show fields.get ⟨i, h⟩ = fields.getD (0 + i + 1 - 1) []
    have : 0 + i + 1 - 1 = i := by omega
    rw [this, getD_vals fields i h]
  show Tmpl.flattenUpTo (0 + fields.length) _ T = _
  have : 0 + fields.length = fields.length := by omega
  rw [this, flattenUpTo_substAll _ fields.length T hT]

end SerialStudio

namespace SerialStudio

theorem mapState_fst_congr (f : α → σ → β × σ)
    (hf : ∀ a s s', (f a s).1 = (f a s').1) :
    ∀ (xs : List α) (s s' : σ), (mapState f xs s).1 = (mapState f xs s').1 := by
  intro xs
  induction xs with
  | nil => intro s s'; rfl
  | cons a as ih =>
    intro s s'
    simp only [mapState]
    rw [hf a s s']
    exact congrArg _ (ih _ _)

theorem processDataset_fst_congr (eval : Str → σ → Option Str × σ)
    (h : ∀ ex s s', (eval ex s).1 = (eval ex s').1) (e : JVal) (s s' : σ) :
    (processDataset eval e s).1 = (processDataset eval e s').1 := by
  have hh := h (objValue e.toObjFields vKey).toStr s s'
  cases hcase : (eval (objValue e.toObjFields vKey).toStr s).1 with
  | none =>
    cases hcase' : (eval (objValue e.toObjFields vKey).toStr s').1 with
    | none => simp [processDataset, hcase, hcase']
    | some res => rw [hcase, hcase'] at hh; exact absurd hh (by simp)
  | some res =>
    cases hcase' : (eval (objValue e.toObjFields vKey).toStr s').1 with
    | none => rw [hcase, hcase'] at hh; exact absurd hh (by simp)
    | some res' =>
      rw [hcase, hcase'] at hh
      obtain rfl : res = res' := by simpa using hh
      simp [processDataset, hcase, hcase']

theorem processGroup_fst_congr (eval : Str → σ → Option Str × σ)
    (h : ∀ ex s s', (eval ex s).1 = (eval ex s').1) (g : JVal) (s s' : σ) :
    (processGroup eval g s).1 = (processGroup eval g s').1 := by
  simp only [processGroup]
  rw [mapState_fst_congr (processDataset eval)
    (fun a u u' => processDataset_fst_congr eval h a u u') _ s s']

theorem buildTemplated_fst_congr (eval : Str → σ → Option Str × σ)
    (h : ∀ ex s s', (eval ex s).1 = (eval ex s').1) (doc : JVal) (s s' : σ) :
    (buildTemplated eval doc s).1 = (buildTemplated eval doc s').1 := by
  simp only [buildTemplated]
  rw [mapState_fst_congr (processGroup eval)
    (fun a u u' => processGroup_fst_congr eval h a u u') _ s s']

theorem loadJsonMapF_frameCount (parse : Str → Option JVal) (g : GenState σ)
    (path : Str) (file : Option Str) :
    (loadJsonMapF parse g path file).frameCount = g.frameCount := by
  by_cases hp : path.isEmpty
  · simp [loadJsonMapF, hp]
  · cases file with
    | none => by_cases ho : g.mapOpen <;> simp [loadJsonMapF, hp, ho]
    | some content =>
      cases hc : parse content with
      | none => by_cases ho : g.mapOpen <;> simp [loadJsonMapF, hp, ho, hc]
      | some d => by_cases ho : g.mapOpen <;> simp [loadJsonMapF, hp, ho, hc]

theorem step_frameCount_no_reset (parse : Str → Option JVal)
    (eval : Str → σ → Option Str × σ) (g : GenState σ) (e : Ev)
    (hr : invokesReset e = false) :
    (step parse eval g e).1.frameCount
      = g.frameCount + (if acceptsFrame e then 1 else 0) := by
  cases e with
  | readData env data time =>
    by_cases hc : env.csvOpen
    · simp [step, acceptsFrame, hc]
    · simp only [Bool.not_eq_true] at hc
      by_cases hd : data.isEmpty
      · simp [step, acceptsFrame, hc, hd]
      · simp only [Bool.not_eq_true] at hd
        by_cases ht : g.threading
        · simp [step, acceptsFrame, hc, hd, ht]
        · simp only [Bool.not_eq_true] at ht
          simp [step, acceptsFrame, hc, hd, ht]
  | reset => simp [invokesReset] at hr
  | loadJSON env doc time =>
    simp only [invokesReset] at hr
    cases hcsv : env.csvOpen <;> cases hdev : env.devOpen <;> cases hmq : env.mqttSub <;>
      simp_all [step, loadJFIfun, acceptsFrame]
  | loadJFI env info =>
    simp only [invokesReset] at hr
    cases hcsv : env.csvOpen <;> cases hdev : env.devOpen <;> cases hmq : env.mqttSub <;>
      simp_all [step, loadJFIfun, acceptsFrame]
  | setMode m => simp [step, acceptsFrame]
  | setThreaded b => simp [step, acceptsFrame]
  | loadMap path file => simp [step, acceptsFrame, loadJsonMapF_frameCount]

theorem step_frameCount_reset (parse : Str → Option JVal)
    (eval : Str → σ → Option Str × σ) (g : GenState σ) (e : Ev)
    (hr : invokesReset e = true) :
    (step parse eval g e).1.frameCount = 0 := by
  cases e with
  | reset => simp [step]
  | loadJSON env doc time =>
    simp only [invokesReset] at hr
    cases hcsv : env.csvOpen <;> cases hdev : env.devOpen <;> cases hmq : env.mqttSub <;>
      simp_all [step, loadJFIfun]
  | loadJFI env info =>
    simp only [invokesReset] at hr
    cases hcsv : env.csvOpen <;> cases hdev : env.devOpen <;> cases hmq : env.mqttSub <;>
      simp_all [step, loadJFIfun]
  | readData env data time => simp [invokesReset] at hr
  | setMode m => simp [invokesReset] at hr
  | setThreaded b => simp [invokesReset] at hr
  | loadMap path file => simp [invokesReset] at hr

end SerialStudio

namespace SerialStudio

theorem trace_frameCounts (parse : Str → Option JVal)
    (eval : Str → σ → Option Str × σ) :
    ∀ (evs : List Ev) (g : GenState σ), (∀ e ∈ evs, invokesReset e = false) →
      (runState parse eval g evs).frameCount
          = g.frameCount + evs.countP acceptsFrame
        ∧ runAssigned parse eval g evs
          = List.range' (g.frameCount + 1) (evs.countP acceptsFrame) := by
  intro evs
  induction evs with
  | nil => intro g _; simp [runState, runAssigned, List.countP_nil]
  | cons e es ih =>
    intro g h
    have he : invokesReset e = false := h e (List.mem_cons_self e es)
    have hes : ∀ x ∈ es, invokesReset x = false :=
      fun x hx => h x (List.mem_cons_of_mem e hx)
    have hstep := step_frameCount_no_reset parse eval g e he
    obtain ⟨ihc, iha⟩ := ih (step parse eval g e).1 hes
    constructor
    · show (runState parse eval (step parse eval g e).1 es).frameCount = _
      rw [ihc, hstep, List.countP_cons]
      by_cases ha : acceptsFrame e
      · simp [ha]
        omega
      · simp [ha]
    · show (if acceptsFrame e then [g.frameCount + 1] else [])
          ++ runAssigned parse eval (step parse eval g e).1 es = _
      rw [iha, hstep, List.countP_cons]
      by_cases ha : acceptsFrame e
      · simp [List.range'_succ, ha]
      · simp [ha]

end SerialStudio

namespace SerialStudio

theorem processFrameCore_frameNumber (parse : Str → Option JVal)
    (eval : Str → σ → Option Str × σ) (g : GenState σ) (env : Env)
    (data : Str) (frame : Nat) (t : Nat) (j : JFI)
    (h : (processFrameCore parse eval g env data frame t).1 = some j) :
    j.frameNumber = frame := by
  cases hm : g.opMode with
  | kAutomatic =>
    cases hp : parse data with
    | none => simp [processFrameCore, hm, hp] at h
    | some d =>
      simp only [processFrameCore, hm, hp] at h
      obtain rfl : JFI_CreateNew frame t d = j := by simpa using h
      rfl
  | kManual =>
    by_cases hmap : g.mapData.isEmpty
    · simp [processFrameCore, hm, hmap] at h
    · cases hp : parse (substituteFields g.mapData (splitOnStr env.sep data)) with
      | none => simp [processFrameCore, hm, hmap, hp] at h
      | some doc =>
        simp only [processFrameCore, hm, hmap, hp, Bool.false_eq_true, if_false] at h
        obtain rfl : JFI_CreateNew frame t (buildTemplated eval doc g.engine).1 = j := by
          simpa using h
        rfl

theorem processFrameCore_fst_congr (parse : Str → Option JVal)
    (eval : Str → σ → Option Str × σ)
    (h : ∀ ex s s', (eval ex s).1 = (eval ex s').1)
    (g g' : GenState σ) (hm : g.opMode = g'.opMode) (hd : g.mapData = g'.mapData)
    (env : Env) (data : Str) (frame : Nat) (t : Nat) :
    (processFrameCore parse eval g env data frame t).1
      = (processFrameCore parse eval g' env data frame t).1 := by
  cases hmode : g'.opMode with
  | kAutomatic =>
    cases hp : parse data <;>
      simp [processFrameCore, hm, hmode, hp]
  | kManual =>
    by_cases hmap : g'.mapData.isEmpty
    · simp [processFrameCore, hm, hmode, hd, hmap]
    · cases hp : parse (substituteFields g'.mapData (splitOnStr env.sep data)) with
      | none => simp [processFrameCore, hm, hmode, hd, hmap, hp]
      | some doc =>
        simp only [processFrameCore, hm, hmode, hd, hmap, hp, Bool.false_eq_true, if_false]
        rw [buildTemplated_fst_congr eval h doc g.engine g'.engine]

end SerialStudio

namespace SerialStudio

/-- A concrete instance of the external parser parameter, behaving as
`QJsonDocument::fromJson` does on the two fixed texts used in concrete runs:
`"[]"` parses to an empty array document, everything else is a parse error. -/
def parseStub : Str → Option JVal :=
  fun s => if s = strL "[]" then some (.jarr []) else none

/-- A trivial engine-semantics instance: every evaluation reports an error
and has no state. -/
def evalU : Str → Unit → Option Str × Unit := fun _ u => (none, u)

/-- The serialized text of a one-group / one-dataset map document,
`{"g":[{"d":[{"v":"X"}]}]}`. -/
def jsonMapText : Str :=
  strL "\x7b\"g\":[\x7b\"d\":[\x7b\"v\":\"X\"\x7d]\x7d]\x7d"

/-- The structured document `jsonMapText` denotes. -/
def docT : JVal :=
  .jobj [(gKey, .jarr [.jobj [(dKey, .jarr [.jobj [(vKey, .jstr (strL "X"))]])]])]

/-- A concrete parser instance behaving as `QJsonDocument::fromJson` does on
`jsonMapText` (it parses to `docT`); other texts are parse errors. -/
def parseT : Str → Option JVal :=
  fun s => if s = jsonMapText then some docT else none

/-- A concrete stateful engine-semantics instance (engine state = a call
counter): every evaluation succeeds and returns the number of evaluations
the engine instance has already performed — a legitimate behaviour for the
opaque external `QJSEngine`, whose scripts can create global state. -/
def evalCount : Str → Nat → Option Str × Nat :=
  fun _ n => (some (natDigits n), n + 1)

/-- Collaborator state with a connected device, closed CSV player, comma
separator. -/
def envI : Env := ⟨false, true, false, strL ","⟩

/-- Collaborator state with no active source at all. -/
def envNone : Env := ⟨false, false, false, strL ","⟩

end SerialStudio

namespace SerialStudio

/-- C1, counterexample.  The claim asserts that a field value containing
another placeholder's marker text (here field 1's value `"x%2y"`, containing
`"%2"`) is never itself treated as a marker by a later replacement pass, so
on template `"%1"` with fields `["x%2y", "Z"]` the substituted text would
have to be `"x%2y"`.  The source's pass for `%2` rescans the whole text from
position 0 (`size_t start_pos = 0` is reset for every id, Generator.cpp
line 349) and rewrites the marker text the first pass inserted: the result
is `"xZy"`. -/
theorem C1_counterexample :
    substituteFields (strL "%1") [strL "x%2y", strL "Z"] = strL "xZy"
      ∧ substituteFields (strL "%1") [strL "x%2y", strL "Z"] ≠ strL "x%2y" := by
  constructor
  · decide
  · decide

/-- C1, amended.  What the replacement loop does guarantee is confined to a
single pass: within the pass for one id, the replacement value is inserted
verbatim and the scan resumes after it (`start_pos += value.length()`), so
an occurrence of the pass's own marker inside the inserted value is never
rescanned by that pass.  Values containing a later id's marker are,
however, rewritten by that later id's pass (see the counterexample). -/
theorem C1_theorem (tl val a b : Str) (ha : '%' ∉ a) :
    replaceAll ('%' :: tl) val (a ++ ('%' :: tl) ++ b)
      = a ++ val ++ replaceAll ('%' :: tl) val b := by
  rw [List.append_assoc, replaceAll_skip tl val a _ ha,
    replaceAll_match ('%' :: tl) val _ (by simp) (begins_self_append _ _),
    List.drop_left, List.append_assoc]

/-- C1, witness: one pass on `"A%7B"` with a replacement value that itself
contains the pass's marker `%7`: the value is inserted verbatim, unscanned. -/
theorem C1_theorem_witness :
    '%' ∉ strL "A"
      ∧ replaceAll ('%' :: strL "7") (strL "x%7y") (strL "A" ++ ('%' :: strL "7") ++ strL "B")
        = strL "A" ++ strL "x%7y" ++ replaceAll ('%' :: strL "7") (strL "x%7y") (strL "B") :=
  ⟨by decide, C1_theorem (strL "7") (strL "x%7y") (strL "A") (strL "B") (by decide)⟩

/-- C2, counterexample.  The claim asserts that no occurrence of a marker
such as `%10` is corrupted by the replacement pass of a marker that is its
textual prefix such as `%1`.  On template `"%10"` with ten fields
`"a".."j"`, the pass for `%1` (run first) matches the prefix `%1` of `%10`
and replaces it by field 1's value: the result is `"a0"`, not field 10's
value `"j"`. -/
theorem C2_counterexample :
    substituteFields (strL "%10")
        [strL "a", strL "b", strL "c", strL "d", strL "e",
         strL "f", strL "g", strL "h", strL "i", strL "j"] = strL "a0"
      ∧ substituteFields (strL "%10")
        [strL "a", strL "b", strL "c", strL "d", strL "e",
         strL "f", strL "g", strL "h", strL "i", strL "j"] ≠ strL "j" := by
  constructor
  · decide
  · decide

/-- C2, amended.  Substitution is correct exactly on the prefix-unambiguous
fragment: for a frame of at most 9 fields (all markers single-digit, so no
marker is a textual prefix of another), a template whose literal runs
contain no `%` and reference only ids `1..n`, and field values that contain
no `%` (a value containing marker text is rewritten by a later pass — claim
C1's counterexample), every occurrence of `%k` ends up replaced by exactly
the value of field `k` (1-indexed), multiple occurrences of one id all
resolving to the same value. -/
theorem C2_theorem (T : Tmpl) (fields : List Str)
    (hn : fields.length ≤ 9) (hT : T.Wf fields.length)
    (hv : ∀ v ∈ fields, '%' ∉ v) :
    substituteFields T.flatten fields
      = T.substAll (fun k => fields.getD (k - 1) []) :=
  substituteFields_spec T fields hn hT hv

/-- C2, witness: template `"a %1 b %2 c %1"` with fields `["X", "Y"]`. -/
theorem C2_theorem_witness :
    ([strL "X", strL "Y"] : List Str).length ≤ 9
      ∧ (Tmpl.piece (strL "a ") 1 (Tmpl.piece (strL " b ") 2
          (Tmpl.piece (strL " c ") 1 (Tmpl.last [])))).Wf 2
      ∧ (∀ v ∈ ([strL "X", strL "Y"] : List Str), '%' ∉ v)
      ∧ substituteFields
          (Tmpl.piece (strL "a ") 1 (Tmpl.piece (strL " b ") 2
            (Tmpl.piece (strL " c ") 1 (Tmpl.last [])))).flatten
          [strL "X", strL "Y"]
        = (Tmpl.piece (strL "a ") 1 (Tmpl.piece (strL " b ") 2
            (Tmpl.piece (strL " c ") 1 (Tmpl.last [])))).substAll
            (fun k => ([strL "X", strL "Y"] : List Str).getD (k - 1) []) :=
  ⟨by decide, by decide, by decide,
    C2_theorem _ [strL "X", strL "Y"] (by decide) (by decide) (by decide)⟩

end SerialStudio

namespace SerialStudio

/-- C3, counterexample.  The claim asserts an offloaded task's envelope
depends only on the dispatch-time snapshot; but `JSONWorker::process()`
(Generator.cpp lines 438–446) reads `generator->operationMode()` and
`generator->jsonMapData()` from the live singleton when the task executes.
Two executions from the identical snapshot (`"[]"`, frame 1), against
generator states differing only in the operation mode changed after
dispatch, produce different envelopes: an array document in automatic mode,
no envelope at all in templated mode with an empty map. -/
theorem C3_counterexample :
    (workerProcess parseStub evalU () ⟨strL "[]", 1, 0⟩
        (⟨3, .kAutomatic, [], false, [], true, ()⟩ : GenState Unit) envI).isSome = true
      ∧ workerProcess parseStub evalU () ⟨strL "[]", 1, 0⟩
        (⟨3, .kManual, [], false, [], true, ()⟩ : GenState Unit) envI = none
      ∧ (⟨3, .kManual, [], false, [], true, ()⟩ : GenState Unit)
        = {(⟨3, .kAutomatic, [], false, [], true, ()⟩ : GenState Unit) with
            opMode := OpMode.kManual} :=
  ⟨rfl, rfl, rfl⟩

/-- C3, amended.  The worker's snapshot covers only the frame bytes, frame
number and timestamp; the operation mode and template text are read from
the generator at execution time (and the separator from the I/O manager),
so a configuration change between dispatch and execution does affect the
task.  What does hold: the result depends on the execution-time generator
state only through the operation mode and the map text — all other
generator fields (counter, threading flag, engine, settings) are
irrelevant to the task. -/
theorem C3_theorem (parse : Str → Option JVal) (eval : Str → σ → Option Str × σ)
    (freshEngine : σ) (w : WSnap) (g g' : GenState σ) (env : Env)
    (hm : g.opMode = g'.opMode) (hd : g.mapData = g'.mapData) :
    workerProcess parse eval freshEngine w g env
      = workerProcess parse eval freshEngine w g' env := by
  cases hmode : g'.opMode with
  | kAutomatic => simp [workerProcess, hm, hmode]
  | kManual => simp [workerProcess, hm, hmode, hd]

/-- C3, witness: two generator states agreeing on mode and map text but
with different counters and threading flags give the same task result. -/
theorem C3_theorem_witness :
    (⟨3, .kAutomatic, [], false, [], true, ()⟩ : GenState Unit).opMode
        = (⟨9, .kAutomatic, [], true, strL "p", false, ()⟩ : GenState Unit).opMode
      ∧ (⟨3, .kAutomatic, [], false, [], true, ()⟩ : GenState Unit).mapData
        = (⟨9, .kAutomatic, [], true, strL "p", false, ()⟩ : GenState Unit).mapData
      ∧ workerProcess parseStub evalU () ⟨strL "[]", 1, 0⟩
          (⟨3, .kAutomatic, [], false, [], true, ()⟩ : GenState Unit) envI
        = workerProcess parseStub evalU () ⟨strL "[]", 1, 0⟩
          (⟨9, .kAutomatic, [], true, strL "p", false, ()⟩ : GenState Unit) envI :=
  ⟨rfl, rfl,
    C3_theorem parseStub evalU () ⟨strL "[]", 1, 0⟩ _ _ envI rfl rfl⟩

/-- C4, counterexample.  The claim asserts that after a failed load the
store still holds the previously loaded valid document.  In
`Generator::loadJsonMap` (lines 146–152) the open previous map is closed
and `m_jsonMapData` cleared before the new file is even opened, and the
failure branches never restore it: after a failed (unreadable) load over a
previously loaded document `"[]"`, the store text is empty, not `"[]"`. -/
theorem C4_counterexample :
    (loadJsonMapF parseStub
        (⟨0, .kManual, strL "[]", true, strL "old", false, ()⟩ : GenState Unit)
        (strL "new") none).mapData = []
      ∧ (⟨0, .kManual, strL "[]", true, strL "old", false, ()⟩ : GenState Unit).mapData
          ≠ ([] : Str) :=
  ⟨rfl, by decide⟩

/-- C4, amended.  A failed load (unreadable file or JSON parse error) always
leaves the store empty and closed — fail-closed, never half-loaded and never
the previous document (the clause of the spec this matches is §4.1: "on
failure, the store's current document is cleared").  The hypothesis is the
store invariant maintained by every load: a closed store holds no text. -/
theorem C4_theorem (parse : Str → Option JVal) (g : GenState σ) (path : Str)
    (file : Option Str) (hinv : g.mapOpen = false → g.mapData = [])
    (hpath : path.isEmpty = false)
    (hfail : ∀ c, file = some c → parse c = none) :
    (loadJsonMapF parse g path file).mapData = []
      ∧ (loadJsonMapF parse g path file).mapOpen = false := by
  cases file with
  | none =>
    by_cases ho : g.mapOpen <;> simp [loadJsonMapF, hpath, ho]
  | some c =>
    have hc := hfail c rfl
    by_cases ho : g.mapOpen
    · simp [loadJsonMapF, hpath, ho, hc]
    · simp only [Bool.not_eq_true] at ho
      simp [loadJsonMapF, hpath, ho, hc, hinv ho]

/-- C4, witness: a parse-error load over a previously loaded store. -/
theorem C4_theorem_witness :
    ((⟨0, .kManual, strL "[]", true, strL "old", false, ()⟩ : GenState Unit).mapOpen = false
        → (⟨0, .kManual, strL "[]", true, strL "old", false, ()⟩ : GenState Unit).mapData = [])
      ∧ (strL "new").isEmpty = false
      ∧ (∀ c, (some (strL "bad") : Option Str) = some c → parseStub c = none)
      ∧ (loadJsonMapF parseStub
          (⟨0, .kManual, strL "[]", true, strL "old", false, ()⟩ : GenState Unit)
          (strL "new") (some (strL "bad"))).mapData = []
      ∧ (loadJsonMapF parseStub
          (⟨0, .kManual, strL "[]", true, strL "old", false, ()⟩ : GenState Unit)
          (strL "new") (some (strL "bad"))).mapOpen = false := by
  refine ⟨by decide, by decide, ?_, ?_⟩
  · intro c hc
    cases hc
    rfl
  · exact C4_theorem parseStub _ (strL "new") (some (strL "bad")) (by decide) (by decide)
      (fun c hc => by cases hc; rfl)

end SerialStudio

namespace SerialStudio

/-- C5, counterexample.  The claim asserts no state persists inside the
expression evaluator across invocations, datasets or frames.  The inline
path evaluates through the single long-lived member engine `m_engine`
(Generator.cpp line 381), created once for the `Generator` singleton and
threaded through every dataset of every frame; the external `QJSEngine` is
only opaque state to this code (its scripts may create globals).  For the
admissible engine semantics `evalCount` (result = number of calls already
made on the instance), two textually identical frames `"d"` against the
same template — identical substituted field values, same expression `"X"` —
produce envelopes whose dataset value differs: `"0"` for the first frame,
`"1"` for the second. -/
theorem C5_counterexample :
    (step parseT evalCount
        (⟨0, .kManual, jsonMapText, true, [], false, 0⟩ : GenState Nat)
        (.readData envI (strL "d") 0)).2.1.map jfiDatasetValue = [strL "0"]
      ∧ (step parseT evalCount
          (step parseT evalCount
            (⟨0, .kManual, jsonMapText, true, [], false, 0⟩ : GenState Nat)
            (.readData envI (strL "d") 0)).1
          (.readData envI (strL "d") 1)).2.1.map jfiDatasetValue = [strL "1"]
      ∧ strL "0" ≠ strL "1" := by
  refine ⟨by decide, by decide, by decide⟩

/-- C5, amended.  Evaluation is deterministic in the engine state at the
moment of the call; identical results for identical context values are
guaranteed exactly when the engine's evaluate is insensitive to its own
accumulated state.  Under that hypothesis the inline path's emitted
envelope does not depend on the engine state left behind by earlier frames
or datasets (nor on any generator field other than mode and map text). -/
theorem C5_theorem (parse : Str → Option JVal) (eval : Str → σ → Option Str × σ)
    (hstateless : ∀ ex s s', (eval ex s).1 = (eval ex s').1)
    (g g' : GenState σ) (hm : g.opMode = g'.opMode) (hd : g.mapData = g'.mapData)
    (env : Env) (data : Str) (frame : Nat) (t : Nat) :
    (processFrameCore parse eval g env data frame t).1
      = (processFrameCore parse eval g' env data frame t).1 :=
  processFrameCore_fst_congr parse eval hstateless g g' hm hd env data frame t

/-- C5, witness: a stateless echo semantics; the same frame from two
different accumulated engine states yields the same envelope. -/
theorem C5_theorem_witness :
    (∀ (ex : Str) (s s' : Nat),
        ((fun (ex : Str) (n : Nat) => ((some ex : Option Str), n + 1)) ex s).1
          = ((fun (ex : Str) (n : Nat) => ((some ex : Option Str), n + 1)) ex s').1)
      ∧ (processFrameCore parseT (fun (ex : Str) (n : Nat) => ((some ex : Option Str), n + 1))
          (⟨0, .kManual, jsonMapText, true, [], false, 0⟩ : GenState Nat)
          envI (strL "d") 1 0).1
        = (processFrameCore parseT (fun (ex : Str) (n : Nat) => ((some ex : Option Str), n + 1))
          (⟨5, .kManual, jsonMapText, true, [], false, 42⟩ : GenState Nat)
          envI (strL "d") 1 0).1 :=
  ⟨fun _ _ _ => rfl,
    C5_theorem parseT _ (fun _ _ _ => rfl) _ _ rfl rfl envI (strL "d") 1 0⟩

/-- C6, confirmed.  In templated mode with a loaded map, once the
substituted text parses, the frame's envelope is emitted no matter what the
evaluator does (emission at line 407 tests only the JSON parse error); and
per dataset, a successful evaluation overwrites the `"v"` slot with the
evaluator's textual result while an evaluation error leaves the dataset
element exactly as parsed (lines 384–389 replace the element only when
`!jsValue.isError()`). -/
theorem C6_theorem (parse : Str → Option JVal) (eval : Str → σ → Option Str × σ)
    (g : GenState σ) (env : Env) (data : Str) (frame : Nat) (t : Nat) (doc : JVal)
    (hm : g.opMode = .kManual) (hmap : g.mapData.isEmpty = false)
    (hp : parse (substituteFields g.mapData (splitOnStr env.sep data)) = some doc) :
    ((processFrameCore parse eval g env data frame t).1).isSome = true
      ∧ (∀ (e : JVal) (st : σ) (res : Str),
          (eval (objValue e.toObjFields vKey).toStr st).1 = some res →
            (processDataset eval e st).1
              = .jobj (objInsert e.toObjFields vKey (.jstr res)))
      ∧ (∀ (e : JVal) (st : σ),
          (eval (objValue e.toObjFields vKey).toStr st).1 = none →
            (processDataset eval e st).1 = e) := by
  refine ⟨?_, ?_, ?_⟩
  · simp [processFrameCore, hm, hmap, hp]
  · intro e st res h
    simp [processDataset, h]
  · intro e st h
    simp [processDataset, h]

/-- C6, witness: the concrete one-dataset template run with an
always-failing evaluator still emits, and both per-dataset branches are
exercised. -/
theorem C6_theorem_witness :
    (⟨0, .kManual, jsonMapText, true, [], false, 0⟩ : GenState Nat).opMode = .kManual
      ∧ (⟨0, .kManual, jsonMapText, true, [], false, 0⟩ : GenState Nat).mapData.isEmpty = false
      ∧ parseT (substituteFields
          (⟨0, .kManual, jsonMapText, true, [], false, 0⟩ : GenState Nat).mapData
          (splitOnStr envI.sep (strL "d"))) = some docT
      ∧ ((processFrameCore parseT evalCount
          (⟨0, .kManual, jsonMapText, true, [], false, 0⟩ : GenState Nat)
          envI (strL "d") 1 0).1).isSome = true :=
  ⟨rfl, by decide, rfl,
    (C6_theorem parseT evalCount
      (⟨0, .kManual, jsonMapText, true, [], false, 0⟩ : GenState Nat)
      envI (strL "d") 1 0 docT rfl (by decide) rfl).1⟩

end SerialStudio

namespace SerialStudio

/-- C7, confirmed.  Along any sequence of operations in which
`Generator::reset()` is not invoked (no lifecycle reset slot, no delivery
falling into the no-source reset of `loadJFI`), the frame counter grows by
exactly one per accepted frame and never decreases, the sequence numbers
assigned are the consecutive block starting after the initial counter —
hence never assigned twice — and the counter reaches 0 in a step exactly
when that step invokes `reset()`. -/
theorem C7_theorem (parse : Str → Option JVal) (eval : Str → σ → Option Str × σ)
    (g : GenState σ) (evs : List Ev) (h : ∀ e ∈ evs, invokesReset e = false) :
    (runState parse eval g evs).frameCount
        = g.frameCount + evs.countP acceptsFrame
      ∧ runAssigned parse eval g evs
        = List.range' (g.frameCount + 1) (evs.countP acceptsFrame)
      ∧ (runAssigned parse eval g evs).Nodup
      ∧ (∀ e : Ev, invokesReset e = true →
          (step parse eval g e).1.frameCount = 0) := by
  obtain ⟨hc, ha⟩ := trace_frameCounts parse eval evs g h
  exact ⟨hc, ha, ha ▸ List.nodup_range' _ _,
    fun e he => step_frameCount_reset parse eval g e he⟩

/-- C7, witness: a trace of four events with no reset — an accepted frame,
a configuration change, an empty (dropped) frame and an accepted frame —
assigns exactly the numbers 4 and 5 starting from counter 3. -/
theorem C7_theorem_witness :
    (∀ e ∈ [Ev.readData envI (strL "[]") 7, Ev.setThreaded true,
        Ev.readData envI [] 8, Ev.readData envI (strL "x") 9],
      invokesReset e = false)
      ∧ (runState parseStub evalU
          (⟨3, .kAutomatic, [], false, [], false, ()⟩ : GenState Unit)
          [Ev.readData envI (strL "[]") 7, Ev.setThreaded true,
            Ev.readData envI [] 8, Ev.readData envI (strL "x") 9]).frameCount
        = (⟨3, .kAutomatic, [], false, [], false, ()⟩ : GenState Unit).frameCount
          + ([Ev.readData envI (strL "[]") 7, Ev.setThreaded true,
              Ev.readData envI [] 8, Ev.readData envI (strL "x") 9].countP acceptsFrame)
      ∧ runAssigned parseStub evalU
          (⟨3, .kAutomatic, [], false, [], false, ()⟩ : GenState Unit)
          [Ev.readData envI (strL "[]") 7, Ev.setThreaded true,
            Ev.readData envI [] 8, Ev.readData envI (strL "x") 9]
        = List.range'
            ((⟨3, .kAutomatic, [], false, [], false, ()⟩ : GenState Unit).frameCount + 1)
            ([Ev.readData envI (strL "[]") 7, Ev.setThreaded true,
              Ev.readData envI [] 8, Ev.readData envI (strL "x") 9].countP acceptsFrame) := by
  refine ⟨by decide, ?_, ?_⟩
  · exact (C7_theorem parseStub evalU _ _ (by decide)).1
  · exact (C7_theorem parseStub evalU _ _ (by decide)).2.1

/-- C8, confirmed.  A lifecycle reset zeroes the counter and emits exactly
the distinguished empty envelope (sequence 0, no document); the next
accepted frame is assigned sequence number 1 — the state reaches counter 1
and whatever envelope or worker task the step produces carries frame
number 1. -/
theorem C8_theorem (parse : Str → Option JVal) (eval : Str → σ → Option Str × σ)
    (g : GenState σ) (env : Env) (data : Str) (t : Nat)
    (hc : env.csvOpen = false) (hd : data.isEmpty = false) :
    (step parse eval g Ev.reset).1.frameCount = 0
      ∧ (step parse eval g Ev.reset).2.1 = [JFI_Empty]
      ∧ JFI_Empty.frameNumber = 0 ∧ JFI_Empty.doc = none
      ∧ (step parse eval (step parse eval g Ev.reset).1
          (.readData env data t)).1.frameCount = 1
      ∧ (∀ j ∈ (step parse eval (step parse eval g Ev.reset).1
          (.readData env data t)).2.1, j.frameNumber = 1)
      ∧ (∀ w ∈ (step parse eval (step parse eval g Ev.reset).1
          (.readData env data t)).2.2, w.frame = 1) := by
  refine ⟨rfl, rfl, rfl, rfl, ?_, ?_, ?_⟩
  · by_cases ht : g.threading <;> simp [step, hc, hd, ht]
  · intro j hj
    by_cases ht : g.threading
    · simp [step, hc, hd, ht] at hj
    · simp only [Bool.not_eq_true] at ht
      simp [step, hc, hd, ht] at hj
      exact processFrameCore_frameNumber parse eval _ env data 1 t j hj
  · intro w hw
    by_cases ht : g.threading
    · simp [step, hc, hd, ht] at hw
      subst hw
      rfl
    · simp only [Bool.not_eq_true] at ht
      simp [step, hc, hd, ht] at hw

/-- C8, witness: the reset/next-frame behaviour on a concrete state with
counter 42. -/
theorem C8_theorem_witness :
    envI.csvOpen = false ∧ (strL "[]").isEmpty = false
      ∧ (step parseStub evalU
          (⟨42, .kAutomatic, [], false, [], false, ()⟩ : GenState Unit)
          Ev.reset).1.frameCount = 0
      ∧ (step parseStub evalU
          (⟨42, .kAutomatic, [], false, [], false, ()⟩ : GenState Unit)
          Ev.reset).2.1 = [JFI_Empty]
      ∧ (step parseStub evalU
          (step parseStub evalU
            (⟨42, .kAutomatic, [], false, [], false, ()⟩ : GenState Unit)
            Ev.reset).1
          (.readData envI (strL "[]") 77)).1.frameCount = 1 := by
  refine ⟨rfl, by decide, ?_, ?_, ?_⟩
  · exact (C8_theorem parseStub evalU _ envI (strL "[]") 77 rfl (by decide)).1
  · exact (C8_theorem parseStub evalU
      (⟨42, .kAutomatic, [], false, [], false, ()⟩ : GenState Unit)
      envI (strL "[]") 77 rfl (by decide)).2.1
  · exact (C8_theorem parseStub evalU
      (⟨42, .kAutomatic, [], false, [], false, ()⟩ : GenState Unit)
      envI (strL "[]") 77 rfl (by decide)).2.2.2.2.1

end SerialStudio

namespace SerialStudio

/-- C9, confirmed.  While the CSV replay player reports itself open,
`Generator::readData` returns before touching anything (lines 293–294):
the state (counter included) is unchanged, no envelope is emitted and no
worker task is created. -/
theorem C9_theorem (parse : Str → Option JVal) (eval : Str → σ → Option Str × σ)
    (g : GenState σ) (env : Env) (data : Str) (t : Nat)
    (hc : env.csvOpen = true) :
    step parse eval g (.readData env data t) = (g, [], []) := by
  simp [step, hc]

/-- C9, witness: a frame arriving with the replay player open is dropped
entirely. -/
theorem C9_theorem_witness :
    (⟨true, true, true, strL ","⟩ : Env).csvOpen = true
      ∧ step parseStub evalU
          (⟨5, .kAutomatic, [], false, [], false, ()⟩ : GenState Unit)
          (.readData ⟨true, true, true, strL ","⟩ (strL "[]") 3)
        = ((⟨5, .kAutomatic, [], false, [], false, ()⟩ : GenState Unit), [], []) :=
  ⟨rfl, C9_theorem parseStub evalU _ _ (strL "[]") 3 rfl⟩

/-- C10, counterexample.  The claim asserts every successfully built
envelope is forwarded only if a data source is active at delivery time.
The inline path of `readData` emits `jsonChanged` directly from
`processFrame` (line 408) without the `loadJFI` source check: with the CSV
player closed, the device disconnected and MQTT unsubscribed, an inline
automatic-mode frame still emits its envelope. -/
theorem C10_counterexample :
    (envNone.csvOpen || envNone.devOpen || envNone.mqttSub) = false
      ∧ (step parseStub evalU
          (⟨0, .kAutomatic, [], false, [], false, ()⟩ : GenState Unit)
          (.readData envNone (strL "[]") 0)).2.1
        = [⟨1, 0, some (.jarr [])⟩] :=
  ⟨rfl, rfl⟩

/-- C10, amended.  The active-source guard governs exactly the `loadJFI`
delivery path (used by worker results and `loadJSON`): with a source
active the envelope passes through unchanged, with none active it is
discarded and the pipeline resets (counter 0, empty envelope).  Inline
envelopes bypass this guard. -/
theorem C10_theorem (g : GenState σ) (env : Env) (info : JFI) :
    ((env.csvOpen || env.devOpen || env.mqttSub) = true →
        loadJFIfun g env info = (g, [info]))
      ∧ ((env.csvOpen || env.devOpen || env.mqttSub) = false →
        loadJFIfun g env info = ({g with frameCount := 0}, [JFI_Empty])) := by
  constructor
  · intro h
    simp [loadJFIfun, h]
  · intro h
    simp only [Bool.or_eq_false_iff] at h
    simp [loadJFIfun, h.1.1, h.1.2, h.2]

/-- C10, witness: both branches of the delivery guard at concrete inputs. -/
theorem C10_theorem_witness :
    loadJFIfun (⟨7, .kAutomatic, [], false, [], false, ()⟩ : GenState Unit) envI
        ⟨7, 1, some (.jarr [])⟩
      = ((⟨7, .kAutomatic, [], false, [], false, ()⟩ : GenState Unit),
          [⟨7, 1, some (.jarr [])⟩])
      ∧ loadJFIfun (⟨7, .kAutomatic, [], false, [], false, ()⟩ : GenState Unit) envNone
          ⟨7, 1, some (.jarr [])⟩
        = (({(⟨7, .kAutomatic, [], false, [], false, ()⟩ : GenState Unit) with
            frameCount := 0}), [JFI_Empty]) :=
  ⟨(C10_theorem _ envI _).1 rfl, (C10_theorem _ envNone _).2 rfl⟩

end SerialStudio
